import Mathlib

/-! Anime tracker backend: watchlist ledger, identity guard and season computation.

A shallow embedding of `server.js`.  Every route handler becomes a pure function
from the store (the SQLite tables it touches), the verified caller, the request
inputs and the outcome of each storage step to the new store and the response.

Modelling conventions

* A JavaScript number is an IEEE double.  The finite ones are rationals; `toNumber`
  is the double nearest to a 64-bit integer, which is what a handler sees when it
  reads an INTEGER column, `this.lastID` or a rowid.  NaN and the infinities are
  outside the model.
* JSON request values are `JsVal`; SQLite column values are `SqlVal`, with the
  storage classes NULL, INTEGER, REAL and TEXT (a JSON body cannot carry a BLOB).
* Route parameters (`req.params.id`, `req.params.userId`) are strings, exactly as
  Express hands them to the handler.  How SQLite (column affinity in a comparison
  or an insert) and JavaScript (`!=` between a number and a string) read a string
  as a number, and how SQLite spells a REAL as text, are parameters, `Coercions`.
  Nothing is assumed about how the readings of the two runtimes relate.
* `db.get`, `db.all` and `db.run` may call back with an error.  Each handler takes,
  for each storage step, `none` (the step ran) or `some message` (the step failed
  with `err.message = message`).
* `id INTEGER PRIMARY KEY AUTOINCREMENT` is modelled by the table rows together
  with the `sqlite_sequence` counter of the table.
-/

namespace AnimeTracker

/-! ## JavaScript numbers -/

/-- The number of binary digits `m` has beyond the 53 that the significand of a
double holds; `fuel` bounds the recursion and `m` itself is enough. -/
def excessBits : Nat → Nat → Nat
  | 0, _ => 0
  | fuel + 1, m => if m < 2 ^ 53 then 0 else excessBits fuel (m / 2) + 1

/-- The multiple of `q` nearest to `m`; of two equally near ones, the even
multiple. -/
def roundTiesToEven (m q : Nat) : Nat :=
  if 2 * (m % q) < q then m / q * q
  else if q < 2 * (m % q) then (m / q + 1) * q
  else if m / q % 2 = 0 then m / q * q
  else (m / q + 1) * q

/-- The double nearest to a natural number. -/
def toNumberNat (m : Nat) : Nat :=
  roundTiesToEven m (2 ^ excessBits m m)

/-- The JavaScript number a 64-bit integer becomes when node-sqlite3 hands it to a
handler: the nearest double, ties to even.  Integers of magnitude below `2 ^ 53`
are kept; `2 ^ 53 + 1` becomes `2 ^ 53`. -/
def toNumber (n : Int) : Int :=
  if n < 0 then -((toNumberNat n.natAbs : Nat) : Int) else ((toNumberNat n.natAbs : Nat) : Int)

/-! ## Values -/

/-- A value of a JSON request body field; `undefined` is a field the body lacks,
`num` a finite number, `obj` an array or object with the text its `toString()`
gives. -/
inductive JsVal where
  | undefined
  | null
  | bool (b : Bool)
  | num (x : ℚ)
  | str (s : String)
  | obj (text : String)
  deriving DecidableEq, Repr

/-- A value stored in a table column. -/
inductive SqlVal where
  | null
  | int (n : Int)
  | real (x : ℚ)
  | text (s : String)
  deriving DecidableEq, Repr

/-- How the runtimes read and spell numbers.

* `sqlNumeric s` is the number SQLite converts the text `s` to under
  INTEGER/NUMERIC affinity when that number is an integer, `sqlReal s` when it is
  not an integer; both are `none` for a text that is not a number.
* `realText x` is the text SQLite converts the REAL `x` to.
* `jsToNumber s` is the number the JavaScript comparison of a number with the
  string `s` converts `s` to, when that number is an integer. -/
structure Coercions where
  sqlNumeric : String → Option Int
  sqlReal : String → Option ℚ
  realText : ℚ → String
  jsToNumber : String → Option Int

/-- The largest rowid SQLite can assign, the largest 64-bit integer. -/
def maxRowid : Int := 9223372036854775807

/-- The smallest 64-bit integer. -/
def minRowid : Int := -9223372036854775808

/-- The value node-sqlite3 binds for a JavaScript parameter: strings as TEXT; a
number that is a 32-bit integer as INTEGER and any other number as REAL; booleans
as the INTEGER 0 or 1; `null` as NULL; an array or object as the TEXT of its
`toString()`; an `undefined` parameter is left unbound, which SQLite reads as
NULL. -/
def bindParameter : JsVal → SqlVal
  | .undefined => .null
  | .null => .null
  | .bool b => .int (if b then 1 else 0)
  | .num x =>
    if x.den = 1 ∧ -2147483648 ≤ x.num ∧ x.num ≤ 2147483647 then .int x.num else .real x
  | .str s => .text s
  | .obj text => .text text

/-- A REAL stored into a column declared `INTEGER` becomes an INTEGER when it is a
whole number strictly between the smallest and the largest 64-bit integer, and
stays REAL otherwise. -/
def realToInteger (x : ℚ) : SqlVal :=
  if x.den = 1 ∧ minRowid < x.num ∧ x.num < maxRowid then .int x.num else .real x

/-- Storing into a column declared `INTEGER`: a text that reads as a number is
stored as that number (INTEGER when it is a whole number within 64 bits, REAL
otherwise), any other text as it is; a REAL goes through `realToInteger`. -/
def integerAffinity (rt : Coercions) : SqlVal → SqlVal
  | .text s =>
    match rt.sqlNumeric s with
    | some n => if minRowid ≤ n ∧ n ≤ maxRowid then .int n else .real n
    | none =>
      match rt.sqlReal s with
      | some x => .real x
      | none => .text s
  | .real x => realToInteger x
  | v => v

/-- Storing into a column declared `TEXT`: a number is stored in its text form. -/
def textAffinity (rt : Coercions) : SqlVal → SqlVal
  | .int n => .text (toString n)
  | .real x => .text (rt.realText x)
  | v => v

/-- The comparison `col = ?` of an integer-valued column with a bound string
parameter: numeric affinity is applied to the parameter, and a text that does not
read as an integer equals no integer. -/
def eqParam (rt : Coercions) (col : Int) (param : String) : Bool :=
  decide (rt.sqlNumeric param = some col)

/-- The comparison `w.show_id = s.id` of a stored value with a rowid: numbers are
compared by value, and NULL or a text equals no rowid. -/
def eqRowid (v : SqlVal) (rowid : Int) : Bool :=
  match v with
  | .int n => decide (n = rowid)
  | .real x => decide (x = (rowid : ℚ))
  | _ => false

/-- The JavaScript value of a column that node-sqlite3 hands to a handler: an
INTEGER becomes the nearest double. -/
def readValue : SqlVal → SqlVal
  | .int n => .int (toNumber n)
  | v => v

/-! ## Tables -/

/-- A row of `shows`. -/
structure Show where
  id : Int
  title : SqlVal
  type : SqlVal
  genre : SqlVal
  release_year : SqlVal
  total_episodes : SqlVal
  status : SqlVal
  image_url : SqlVal
  deriving DecidableEq, Repr

/-- A row of `watchlists`.  `user_id` is always bound from the verified identity,
an integer-valued number; the field holds that value. -/
structure WatchlistEntry where
  id : Int
  user_id : Int
  show_id : SqlVal
  status : SqlVal
  progress : SqlVal
  rating : SqlVal
  notes : SqlVal
  deriving DecidableEq, Repr

/-- A row of `clubs`. -/
structure Club where
  id : Int
  name : SqlVal
  description : SqlVal
  creator_id : SqlVal
  created_at : SqlVal
  deriving DecidableEq, Repr

/-- A row of the watchlist query as the handler sends it: `w.*, s.title, s.type,
s.genre, s.total_episodes, s.image_url`. -/
structure WatchlistRow where
  id : Int
  user_id : Int
  show_id : SqlVal
  status : SqlVal
  progress : SqlVal
  rating : SqlVal
  notes : SqlVal
  title : SqlVal
  type : SqlVal
  genre : SqlVal
  total_episodes : SqlVal
  image_url : SqlVal
  deriving DecidableEq, Repr

/-- The tables the handlers read and write, each with its `sqlite_sequence` counter
(the largest rowid the table has ever held). -/
structure Store where
  shows : List Show
  showsSeq : Int
  watchlists : List WatchlistEntry
  watchlistsSeq : Int
  clubs : List Club
  clubsSeq : Int
  deriving DecidableEq, Repr

/-- The store right after `initializeDatabase` on a fresh file. -/
def Store.empty : Store :=
  { shows := [], showsSeq := 0, watchlists := [], watchlistsSeq := 0,
    clubs := [], clubsSeq := 0 }

/-- The largest rowid the table holds or has ever held. -/
def largestRowid (ids : List Int) (seq : Int) : Int :=
  ids.foldl max seq

/-- The rowid an `AUTOINCREMENT` insert assigns: one more than the largest rowid
that ever existed in the table; the insert fails once that is the largest
possible rowid. -/
def nextRowid (ids : List Int) (seq : Int) : Option Int :=
  if largestRowid ids seq < maxRowid then some (largestRowid ids seq + 1) else none

/-- The message of the error an insert raises when no rowid is left. -/
def sqliteFull : String := "SQLITE_FULL: database or disk is full"

/-! ## Responses -/

/-- The verified identity a token carries, `req.user`.  The id is a JavaScript
number: the tokens are signed over `this.lastID` or the `id` column of `users`. -/
structure Identity where
  id : Int
  username : String
  isNumber : toNumber id = id
  deriving DecidableEq, Repr

/-- The JSON object a handler sends. -/
inductive Body where
  | error (message : String)
  | id (lastID : Int)
  | changes (n : Nat)
  | shows (rows : List Show)
  | watchlist (rows : List WatchlistRow)
  | clubs (rows : List Club)
  deriving DecidableEq, Repr

/-- A response: the HTTP status and the JSON body. -/
structure Response where
  status : Nat
  body : Body
  deriving DecidableEq, Repr

/-- The answer `res.json(body)`, status 200. -/
def ok (body : Body) : Response := ⟨200, body⟩

/-- The answer `res.status(403).json({ error: 'Unauthorized' })`. -/
def unauthorized : Response := ⟨403, .error "Unauthorized"⟩

/-- The answer `res.status(500).json({ error: err.message })`. -/
def storageError (message : String) : Response := ⟨500, .error message⟩

/-! ## Catalog proxy: the season of the current month -/

/-- The season of `/api/anime/seasonal`, from `month = now.getMonth() + 1`. -/
def season (month : Nat) : String :=
  if month ≥ 4 ∧ month ≤ 6 then "spring"
  else if month ≥ 7 ∧ month ≤ 9 then "summer"
  else if month ≥ 10 ∧ month ≤ 12 then "fall"
  else "winter"

/-! ## Identity guard -/

/-- JavaScript `split(' ')` on the characters of a string. -/
def splitOnSpace : List Char → List (List Char)
  | [] => [[]]
  | c :: cs =>
    if c = ' ' then [] :: splitOnSpace cs
    else
      match splitOnSpace cs with
      | [] => [[c]]
      | w :: ws => (c :: w) :: ws

/-- The expression `req.headers['authorization']?.split(' ')[1]`. -/
def bearerToken (authorization : Option String) : Option String :=
  match authorization with
  | none => none
  | some header => ((splitOnSpace header.data).get? 1).map String.mk

/-- What the middleware does with a request: answer it, or call `next()` with
`req.user` set. -/
inductive AuthResult where
  | respond (res : Response)
  | next (user : Identity)
  deriving DecidableEq, Repr

/-- The middleware `authenticateToken`.  `verify` is `jwt.verify` with the
process-wide secret: `none` when it calls back with an error. -/
def authenticateToken (verify : String → Option Identity)
    (authorization : Option String) : AuthResult :=
  match bearerToken authorization with
  | none => .respond ⟨401, .error "Access denied"⟩
  | some token =>
    if token = "" then .respond ⟨401, .error "Access denied"⟩
    else
      match verify token with
      | none => .respond ⟨403, .error "Invalid token"⟩
      | some user => .next user

/-! ## Show registry and community layer -/

/-- A row of `shows` as the handler sends it. -/
def readShow (sh : Show) : Show :=
  { id := toNumber sh.id
    title := readValue sh.title
    type := readValue sh.type
    genre := readValue sh.genre
    release_year := readValue sh.release_year
    total_episodes := readValue sh.total_episodes
    status := readValue sh.status
    image_url := readValue sh.image_url }

/-- A row of `clubs` as the handler sends it. -/
def readClub (c : Club) : Club :=
  { id := toNumber c.id
    name := readValue c.name
    description := readValue c.description
    creator_id := readValue c.creator_id
    created_at := readValue c.created_at }

/-- The handler of `GET /api/shows`. -/
def getShows (s : Store) (err : Option String) : Response :=
  match err with
  | some message => storageError message
  | none => ok (.shows (s.shows.map readShow))

/-- The body of `POST /api/shows`. -/
structure ShowBody where
  title : JsVal
  type : JsVal
  genre : JsVal
  release_year : JsVal
  total_episodes : JsVal
  status : JsVal
  image_url : JsVal
  deriving DecidableEq, Repr

/-- The handler of `POST /api/shows`. -/
def postShows (rt : Coercions) (s : Store) (body : ShowBody) (err : Option String) :
    Store × Response :=
  match err with
  | some message => (s, storageError message)
  | none =>
    match nextRowid (s.shows.map (·.id)) s.showsSeq with
    | none => (s, storageError sqliteFull)
    | some lastID =>
      ({ s with
          shows := s.shows ++
            [{ id := lastID
               title := textAffinity rt (bindParameter body.title)
               type := textAffinity rt (bindParameter body.type)
               genre := textAffinity rt (bindParameter body.genre)
               release_year := integerAffinity rt (bindParameter body.release_year)
               total_episodes := integerAffinity rt (bindParameter body.total_episodes)
               status := textAffinity rt (bindParameter body.status)
               image_url := textAffinity rt (bindParameter body.image_url) }]
          showsSeq := lastID },
        ok (.id (toNumber lastID)))

/-- The handler of `GET /api/clubs`. -/
def getClubs (s : Store) (err : Option String) : Response :=
  match err with
  | some message => storageError message
  | none => ok (.clubs (s.clubs.map readClub))

/-- The handler of `POST /api/clubs`; `now` is the value of `CURRENT_TIMESTAMP`. -/
def postClubs (rt : Coercions) (s : Store) (name description creator_id : JsVal)
    (now : String) (err : Option String) : Store × Response :=
  match err with
  | some message => (s, storageError message)
  | none =>
    match nextRowid (s.clubs.map (·.id)) s.clubsSeq with
    | none => (s, storageError sqliteFull)
    | some lastID =>
      ({ s with
          clubs := s.clubs ++
            [{ id := lastID
               name := textAffinity rt (bindParameter name)
               description := textAffinity rt (bindParameter description)
               creator_id := integerAffinity rt (bindParameter creator_id)
               created_at := .text now }]
          clubsSeq := lastID },
        ok (.id (toNumber lastID)))

/-! ## Watchlist ledger -/

/-- One row of `watchlists w JOIN shows s ON w.show_id = s.id`, as the handler
sends it. -/
def joinRow (w : WatchlistEntry) (sh : Show) : WatchlistRow :=
  { id := toNumber w.id, user_id := toNumber w.user_id, show_id := readValue w.show_id,
    status := readValue w.status, progress := readValue w.progress,
    rating := readValue w.rating, notes := readValue w.notes,
    title := readValue sh.title, type := readValue sh.type, genre := readValue sh.genre,
    total_episodes := readValue sh.total_episodes, image_url := readValue sh.image_url }

/-- The rows of `watchlists w JOIN shows s ON w.show_id = s.id`: an entry is paired
with every show whose id its `show_id` equals, so an entry whose `show_id` is NULL,
a text or the id of no show contributes no row. -/
def joinShows : List WatchlistEntry → List Show → List WatchlistRow
  | [], _ => []
  | w :: ws, shows =>
    ((shows.filter (fun sh => eqRowid w.show_id sh.id)).map (joinRow w))
      ++ joinShows ws shows

/-- The handler of `GET /api/watchlist/:userId`, behind `authenticateToken`.  The
guard `req.user.id != userId` compares a number with a string in JavaScript; the
`WHERE w.user_id = ?` compares the column with the same string in SQLite. -/
def getWatchlist (rt : Coercions) (s : Store) (user : Identity) (userId : String)
    (err : Option String) : Response :=
  if rt.jsToNumber userId ≠ some user.id then unauthorized
  else
    match err with
    | some message => storageError message
    | none =>
      ok (.watchlist
        (joinShows (s.watchlists.filter (fun w => eqParam rt w.user_id userId)) s.shows))

/-- The handler of `POST /api/watchlist`, behind `authenticateToken`: the insert
names `user_id`, `show_id` and `status`; `progress` takes its default 0 and
`rating`, `notes` stay NULL. -/
def postWatchlist (rt : Coercions) (s : Store) (user : Identity) (show_id status : JsVal)
    (err : Option String) : Store × Response :=
  match err with
  | some message => (s, storageError message)
  | none =>
    match nextRowid (s.watchlists.map (·.id)) s.watchlistsSeq with
    | none => (s, storageError sqliteFull)
    | some lastID =>
      ({ s with
          watchlists := s.watchlists ++
            [{ id := lastID
               user_id := user.id
               show_id := integerAffinity rt (bindParameter show_id)
               status := textAffinity rt (bindParameter status)
               progress := .int 0
               rating := .null
               notes := .null }]
          watchlistsSeq := lastID },
        ok (.id (toNumber lastID)))

/-- The query `SELECT * FROM watchlists WHERE id = ?` through `db.get`: the first
matching row, if any. -/
def selectById (rt : Coercions) (rows : List WatchlistEntry) (id : String) :
    Option WatchlistEntry :=
  rows.find? (fun r => eqParam rt r.id id)

/-- The body of `PUT /api/watchlist/:id`. -/
structure UpdateBody where
  status : JsVal
  progress : JsVal
  rating : JsVal
  notes : JsVal
  deriving DecidableEq, Repr

/-- The effect of `UPDATE watchlists SET status = ?, progress = ?, rating = ?,
notes = ? WHERE id = ?` on one row. -/
def updateRow (rt : Coercions) (id : String) (body : UpdateBody) (r : WatchlistEntry) :
    WatchlistEntry :=
  if eqParam rt r.id id then
    { r with
      status := textAffinity rt (bindParameter body.status)
      progress := integerAffinity rt (bindParameter body.progress)
      rating := integerAffinity rt (bindParameter body.rating)
      notes := textAffinity rt (bindParameter body.notes) }
  else r

/-- The handler of `PUT /api/watchlist/:id`, behind `authenticateToken`.
`fetchErr` is the outcome of the `db.get`, `writeErr` that of the `db.run`.  The
guard `item.user_id != req.user.id` compares two JavaScript numbers: the column as
node-sqlite3 hands it over, and the id of the identity. -/
def putWatchlist (rt : Coercions) (s : Store) (user : Identity) (id : String)
    (body : UpdateBody) (fetchErr writeErr : Option String) : Store × Response :=
  match fetchErr with
  | some _ => (s, unauthorized)
  | none =>
    match selectById rt s.watchlists id with
    | none => (s, unauthorized)
    | some item =>
      if toNumber item.user_id ≠ user.id then (s, unauthorized)
      else
        match writeErr with
        | some message => (s, storageError message)
        | none =>
          ({ s with watchlists := s.watchlists.map (updateRow rt id body) },
            ok (.changes (s.watchlists.countP (fun r => eqParam rt r.id id))))

/-- The handler of `DELETE /api/watchlist/:id`, behind `authenticateToken`, with
the same guard as the update. -/
def deleteWatchlist (rt : Coercions) (s : Store) (user : Identity) (id : String)
    (fetchErr writeErr : Option String) : Store × Response :=
  match fetchErr with
  | some _ => (s, unauthorized)
  | none =>
    match selectById rt s.watchlists id with
    | none => (s, unauthorized)
    | some item =>
      if toNumber item.user_id ≠ user.id then (s, unauthorized)
      else
        match writeErr with
        | some message => (s, storageError message)
        | none =>
          ({ s with watchlists := s.watchlists.filter (fun r => !eqParam rt r.id id) },
            ok (.changes (s.watchlists.countP (fun r => eqParam rt r.id id))))

/-! ## Sequences of ledger requests -/

/-- A mutating request to the ledger that passed `authenticateToken`, with the
outcome of each of its storage steps. -/
inductive Request where
  | create (user : Identity) (show_id status : JsVal) (err : Option String)
  | update (user : Identity) (id : String) (body : UpdateBody)
      (fetchErr writeErr : Option String)
  | delete (user : Identity) (id : String) (fetchErr writeErr : Option String)
  deriving DecidableEq, Repr

/-- The store and the response after one request. -/
def handle (rt : Coercions) (s : Store) : Request → Store × Response
  | .create user show_id status err => postWatchlist rt s user show_id status err
  | .update user id body fetchErr writeErr => putWatchlist rt s user id body fetchErr writeErr
  | .delete user id fetchErr writeErr => deleteWatchlist rt s user id fetchErr writeErr

/-- The store after a sequence of requests, served one after the other. -/
def run (rt : Coercions) (s : Store) : List Request → Store
  | [] => s
  | r :: rs => run rt (handle rt s r).1 rs

/-! ## Store invariants -/

/-- What SQLite maintains for a table with `id INTEGER PRIMARY KEY AUTOINCREMENT`:
no two rows share an id, and no id exceeds the table's `sqlite_sequence` counter. -/
def Store.WellFormed (s : Store) : Prop :=
  (s.watchlists.map (·.id)).Nodup ∧ ∀ r ∈ s.watchlists, r.id ≤ s.watchlistsSeq

/-- The statuses the schema comment lists. -/
def statuses : List String :=
  ["watching", "completed", "on_hold", "dropped", "plan_to_watch"]

/-- The data-model invariant of one entry: a listed status and a progress that is a
non-negative integer. -/
def EntryValid (e : WatchlistEntry) : Prop :=
  (∃ st ∈ statuses, e.status = .text st) ∧ ∃ n : Int, 0 ≤ n ∧ e.progress = .int n

/-- A request whose body carries a listed status and, for an update, a progress
that is a non-negative integer below the largest 64-bit integer. -/
def Request.Valid : Request → Prop
  | .create _ _ status _ => ∃ st ∈ statuses, status = .str st
  | .update _ _ body _ _ =>
    (∃ st ∈ statuses, body.status = .str st) ∧
      ∃ n : Int, 0 ≤ n ∧ n < maxRowid ∧ body.progress = .num n
  | .delete _ _ _ _ => True

/-! ## A concrete reading of strings, for evaluating the handlers -/

/-- The value of a decimal digit. -/
def digitValue (c : Char) : Option Nat :=
  if 48 ≤ c.toNat ∧ c.toNat ≤ 57 then some (c.toNat - 48) else none

/-- The number a run of decimal digits spells, continuing from `acc`. -/
def readDigits : List Char → Nat → Option Nat
  | [], acc => some acc
  | c :: cs, acc =>
    match digitValue c with
    | some d => readDigits cs (10 * acc + d)
    | none => none

/-- The integer a plain decimal literal spells: digits, with an optional minus
sign in front. -/
def readDecimal (s : String) : Option Int :=
  match s.data with
  | [] => none
  | '-' :: cs => if cs = [] then none else (readDigits cs 0).map (fun n => -(n : Int))
  | cs => (readDigits cs 0).map (fun n => (n : Int))

/-- The two runtimes on plain decimal integer literals: SQLite reads the integer
exactly, JavaScript reads the double nearest to it.  Other texts are read as no
number, and a whole REAL is spelled with `.0` after its digits, as SQLite spells
the ones of magnitude below `10 ^ 15`. -/
def decimalCoercions : Coercions :=
  { sqlNumeric := readDecimal
    sqlReal := fun _ => none
    realText := fun x => toString x.num ++ ".0"
    jsToNumber := fun s => (readDecimal s).map toNumber }

/-- The identity of user 1. -/
def alice : Identity := ⟨1, "alice", by decide⟩

/-- The identity of user 2. -/
def bob : Identity := ⟨2, "bob", by decide⟩

/-- An identity whose id is `2 ^ 53`. -/
def carol : Identity := ⟨9007199254740992, "carol", by decide⟩

/-- The entry of the sample store. -/
def sampleEntry : WatchlistEntry :=
  { id := 1, user_id := 1, show_id := .int 5, status := .text "watching",
    progress := .int 0, rating := .null, notes := .null }

/-- The show of the sample store. -/
def sampleShow : Show :=
  { id := 5, title := .text "Mushishi", type := .text "anime", genre := .text "mystery",
    release_year := .int 2005, total_episodes := .int 26, status := .text "completed",
    image_url := .null }

/-- A store for evaluating the handlers: one show, and one entry that user 1
holds on it. -/
def sampleStore : Store :=
  { shows := [sampleShow], showsSeq := 5, watchlists := [sampleEntry], watchlistsSeq := 1,
    clubs := [], clubsSeq := 0 }

/-- An entry on the sample show whose `user_id` is `2 ^ 53 + 1`, which no
JavaScript number equals. -/
def farEntry : WatchlistEntry :=
  { id := 1, user_id := 9007199254740993, show_id := .int 5, status := .text "watching",
    progress := .int 0, rating := .null, notes := .null }

/-- A store whose one entry is `farEntry`. -/
def farStore : Store :=
  { shows := [sampleShow], showsSeq := 5, watchlists := [farEntry], watchlistsSeq := 1,
    clubs := [], clubsSeq := 0 }

/-- A verifier for evaluating the middleware: it accepts the one token "good" and
reads user 1 from it. -/
def sampleVerify (token : String) : Option Identity :=
  if token = "good" then some alice else none

/-! ## Season computation -/

/-- C7: for every month 1..12 the season is winter for 1..3, spring for 4..6,
summer for 7..9 and fall for 10..12, and it is never anything else. -/
theorem season_of_month (m : Nat) (h1 : 1 ≤ m) (h12 : m ≤ 12) :
    (m ≤ 3 → season m = "winter") ∧
    (4 ≤ m ∧ m ≤ 6 → season m = "spring") ∧
    (7 ≤ m ∧ m ≤ 9 → season m = "summer") ∧
    (10 ≤ m → season m = "fall") ∧
    season m ∈ ["winter", "spring", "summer", "fall"] := by
  interval_cases m <;> simp [season]

/-- The season mapping evaluated at the boundary month 10. -/
theorem season_of_month_witness :
    (1 ≤ 10 ∧ 10 ≤ 12) ∧
    ((10 ≤ 3 → season 10 = "winter") ∧
     (4 ≤ 10 ∧ 10 ≤ 6 → season 10 = "spring") ∧
     (7 ≤ 10 ∧ 10 ≤ 9 → season 10 = "summer") ∧
     (10 ≤ 10 → season 10 = "fall") ∧
     season 10 ∈ ["winter", "spring", "summer", "fall"]) :=
  ⟨by decide, season_of_month 10 (by decide) (by decide)⟩

/-! ## Identity guard -/

/-- C6 (as the code has it): a request without a token is answered 401 "Access
denied"; a token that fails verification is answered 403 "Invalid token"; a token
that verifies lets the request proceed with its identity, and nothing else does. -/
theorem authenticateToken_outcomes (verify : String → Option Identity)
    (authorization : Option String) :
    authenticateToken verify none = .respond ⟨401, .error "Access denied"⟩ ∧
    (bearerToken authorization = none ∨ bearerToken authorization = some "" →
      authenticateToken verify authorization = .respond ⟨401, .error "Access denied"⟩) ∧
    (∀ token, bearerToken authorization = some token → token ≠ "" → verify token = none →
      authenticateToken verify authorization = .respond ⟨403, .error "Invalid token"⟩) ∧
    (∀ token user, bearerToken authorization = some token → token ≠ "" →
      verify token = some user → authenticateToken verify authorization = .next user) ∧
    (∀ user, authenticateToken verify authorization = .next user →
      ∃ token, bearerToken authorization = some token ∧ token ≠ "" ∧
        verify token = some user) := by
  refine ⟨rfl, ?_, ?_, ?_, ?_⟩
  · rintro (h | h) <;> simp [authenticateToken, h]
  · intro token h hne hv
    simp [authenticateToken, h, hne, hv]
  · intro token user h hne hv
    simp [authenticateToken, h, hne, hv]
  · intro user h
    unfold authenticateToken at h
    split at h
    · cases h
    · rename_i token htok
      split at h
      · cases h
      · rename_i hne
        split at h
        · cases h
        · rename_i u hv
          cases h
          exact ⟨token, htok, hne, hv⟩

/-- The three outcomes of the middleware under the sample verifier. -/
theorem authenticateToken_outcomes_witness :
    authenticateToken sampleVerify (some "Bearer") = .respond ⟨401, .error "Access denied"⟩ ∧
    authenticateToken sampleVerify (some "Bearer bad")
      = .respond ⟨403, .error "Invalid token"⟩ ∧
    authenticateToken sampleVerify (some "Bearer good") = .next alice :=
  ⟨(authenticateToken_outcomes sampleVerify (some "Bearer")).2.1 (Or.inl (by decide)),
   (authenticateToken_outcomes sampleVerify (some "Bearer bad")).2.2.1 "bad" (by decide)
     (by decide) (by decide),
   (authenticateToken_outcomes sampleVerify (some "Bearer good")).2.2.2.1 "good"
     alice (by decide) (by decide) (by decide)⟩

/-- C6 fails as stated: a request whose token does not verify is answered 403, not
401. -/
theorem authenticateToken_invalid_not_401 :
    bearerToken (some "Bearer tampered") = some "tampered" ∧
    ∃ res, authenticateToken (fun _ => none) (some "Bearer tampered") = .respond res ∧
      res.status = 403 ∧ res.status ≠ 401 := by
  refine ⟨by decide, ⟨403, .error "Invalid token"⟩, ?_, rfl, by decide⟩
  decide

/-! ## Storage failures -/

/-- C8 (as the code has it): a storage failure in a list or insert handler, or in
the write step of Update and Delete, is answered 500 with the storage layer's own
message as the body's error text and leaves the store as it was; an insert that
finds no rowid left is answered the same way; a storage failure in the fetch step
of Update and Delete is answered 403 "Unauthorized". -/
theorem storage_failure_responses (rt : Coercions) (s : Store) (user : Identity)
    (message : String) :
    getShows s (some message) = ⟨500, .error message⟩ ∧
    getClubs s (some message) = ⟨500, .error message⟩ ∧
    (∀ body, postShows rt s body (some message) = (s, ⟨500, .error message⟩)) ∧
    (∀ name description creator_id now,
      postClubs rt s name description creator_id now (some message)
        = (s, ⟨500, .error message⟩)) ∧
    (∀ userId, rt.jsToNumber userId = some user.id →
      getWatchlist rt s user userId (some message) = ⟨500, .error message⟩) ∧
    (∀ show_id status,
      postWatchlist rt s user show_id status (some message) = (s, ⟨500, .error message⟩)) ∧
    (∀ show_id status, nextRowid (s.watchlists.map (·.id)) s.watchlistsSeq = none →
      postWatchlist rt s user show_id status none = (s, ⟨500, .error sqliteFull⟩)) ∧
    (∀ id body item, selectById rt s.watchlists id = some item → item.user_id = user.id →
      putWatchlist rt s user id body none (some message) = (s, ⟨500, .error message⟩)) ∧
    (∀ id item, selectById rt s.watchlists id = some item → item.user_id = user.id →
      deleteWatchlist rt s user id none (some message) = (s, ⟨500, .error message⟩)) ∧
    (∀ id body writeErr,
      putWatchlist rt s user id body (some message) writeErr
        = (s, ⟨403, .error "Unauthorized"⟩)) ∧
    (∀ id writeErr,
      deleteWatchlist rt s user id (some message) writeErr
        = (s, ⟨403, .error "Unauthorized"⟩)) := by
  refine ⟨rfl, rfl, fun _ => rfl, fun _ _ _ _ => rfl, ?_, fun _ _ => rfl, ?_, ?_, ?_,
    fun _ _ _ => rfl, fun _ _ => rfl⟩
  · intro userId h
    simp [getWatchlist, h, storageError]
  · intro show_id status h
    simp [postWatchlist, h, storageError]
  · intro id body item h hu
    simp [putWatchlist, h, hu, user.isNumber, storageError]
  · intro id item h hu
    simp [deleteWatchlist, h, hu, user.isNumber, storageError]

/-- A failing write step of the owner's Update on the sample store is answered 500
with the storage layer's message, and a failing fetch step is answered 403. -/
theorem storage_failure_responses_witness :
    putWatchlist decimalCoercions sampleStore alice "1"
        ⟨.str "completed", .num 26, .null, .null⟩ none (some "SQLITE_BUSY: database is locked")
      = (sampleStore, ⟨500, .error "SQLITE_BUSY: database is locked"⟩) ∧
    putWatchlist decimalCoercions sampleStore alice "1"
        ⟨.str "completed", .num 26, .null, .null⟩ (some "SQLITE_BUSY: database is locked") none
      = (sampleStore, ⟨403, .error "Unauthorized"⟩) :=
  ⟨(storage_failure_responses decimalCoercions sampleStore alice
      "SQLITE_BUSY: database is locked").2.2.2.2.2.2.2.1 "1"
      ⟨.str "completed", .num 26, .null, .null⟩ sampleEntry (by decide) rfl,
   (storage_failure_responses decimalCoercions sampleStore alice
      "SQLITE_BUSY: database is locked").2.2.2.2.2.2.2.2.2.1 "1"
      ⟨.str "completed", .num 26, .null, .null⟩ none⟩

/-- C8 fails as stated: the 500 answer of the shows list carries the storage
layer's own error text in its body, and a storage failure in the fetch step of an
Update is answered 403, not 500. -/
theorem storage_failure_leaks_message :
    getShows Store.empty (some "SQLITE_IOERR: disk I/O error")
      = ⟨500, .error "SQLITE_IOERR: disk I/O error"⟩ ∧
    (putWatchlist decimalCoercions Store.empty alice "1"
        ⟨.str "watching", .num 1, .null, .null⟩
        (some "SQLITE_IOERR: disk I/O error") none).2.status = 403 := by
  exact ⟨rfl, rfl⟩

/-! ## JavaScript numbers and stored values -/

theorem toNumber_of_lt (n : Int) (h : |n| < 2 ^ 53) : toNumber n = n := by
  have hm : n.natAbs < 2 ^ 53 := by
    have := Int.natCast_natAbs n
    omega
  have he : excessBits n.natAbs n.natAbs = 0 := by
    cases hn : n.natAbs with
    | zero => rfl
    | succ k =>
      rw [hn] at hm
      unfold excessBits
      rw [if_pos hm]
  have ht : toNumberNat n.natAbs = n.natAbs := by
    simp [toNumberNat, he, roundTiesToEven, Nat.mod_one]
  unfold toNumber
  rw [ht]
  split <;> omega

theorem bindParameter_int32 (n : Int) (h1 : -2147483648 ≤ n) (h2 : n ≤ 2147483647) :
    bindParameter (.num n) = .int n := by
  simp [bindParameter, h1, h2]

theorem integerAffinity_num (rt : Coercions) (n : Int) (h1 : minRowid < n)
    (h2 : n < maxRowid) : integerAffinity rt (bindParameter (.num n)) = .int n := by
  by_cases h : -2147483648 ≤ n ∧ n ≤ 2147483647
  · rw [bindParameter_int32 n h.1 h.2]
    rfl
  · have hb : bindParameter (.num n) = .real n := by
      simp only [bindParameter, Rat.intCast_den, Rat.intCast_num, true_and]
      rw [if_neg h]
    rw [hb]
    simp [integerAffinity, realToInteger, h1, h2]

/-! ## Lemmas on the storage steps -/

theorem eqParam_iff (rt : Coercions) (col : Int) (param : String) :
    eqParam rt col param = true ↔ rt.sqlNumeric param = some col := by
  simp [eqParam]

theorem selectById_of_mem {rt : Coercions} {rows : List WatchlistEntry}
    {e : WatchlistEntry} {id : String} (hnd : (rows.map (·.id)).Nodup) (he : e ∈ rows)
    (hid : rt.sqlNumeric id = some e.id) : selectById rt rows id = some e := by
  induction rows with
  | nil => cases he
  | cons r rs ih =>
    rw [List.map_cons, List.nodup_cons] at hnd
    rcases List.mem_cons.mp he with h | h
    · subst h
      simp [selectById, List.find?, eqParam, hid]
    · have hne : r.id ≠ e.id := by
        intro heq
        exact hnd.1 (heq ▸ List.mem_map_of_mem (·.id) h)
      have hr : eqParam rt r.id id = false := by
        simp only [eqParam, hid, decide_eq_false_iff_not]
        intro hc
        exact hne (Option.some.inj hc).symm
      have := ih hnd.2 h
      simpa [selectById, List.find?, hr] using this

theorem selectById_some {rt : Coercions} {rows : List WatchlistEntry}
    {item : WatchlistEntry} {id : String} (h : selectById rt rows id = some item) :
    item ∈ rows ∧ rt.sqlNumeric id = some item.id := by
  unfold selectById at h
  have hp := List.find?_some h
  exact ⟨List.mem_of_find?_eq_some h, (eqParam_iff rt _ _).mp hp⟩

theorem selectById_none_of_absent {rt : Coercions} {rows : List WatchlistEntry}
    {id : String} (h : ∀ r ∈ rows, rt.sqlNumeric id ≠ some r.id) :
    selectById rt rows id = none := by
  cases hs : selectById rt rows id with
  | none => rfl
  | some item => exact absurd (selectById_some hs).2 (h item (selectById_some hs).1)

theorem mem_joinShows {ws : List WatchlistEntry} {shows : List Show} {r : WatchlistRow} :
    r ∈ joinShows ws shows ↔
      ∃ w ∈ ws, ∃ sh ∈ shows, eqRowid w.show_id sh.id = true ∧ r = joinRow w sh := by
  induction ws with
  | nil => simp [joinShows]
  | cons w ws ih =>
    simp only [joinShows, List.mem_append, List.mem_map, List.mem_filter, ih,
      List.mem_cons]
    constructor
    · rintro (⟨sh, ⟨hsh, hw⟩, rfl⟩ | ⟨w1, hw1, sh, hsh, hw, rfl⟩)
      · exact ⟨w, Or.inl rfl, sh, hsh, hw, rfl⟩
      · exact ⟨w1, Or.inr hw1, sh, hsh, hw, rfl⟩
    · rintro ⟨w1, (rfl | hw1), sh, hsh, hw, rfl⟩
      · exact Or.inl ⟨sh, ⟨hsh, hw⟩, rfl⟩
      · exact Or.inr ⟨w1, hw1, sh, hsh, hw, rfl⟩

theorem joinShows_append (ws vs : List WatchlistEntry) (shows : List Show) :
    joinShows (ws ++ vs) shows = joinShows ws shows ++ joinShows vs shows := by
  induction ws with
  | nil => rfl
  | cons w ws ih => simp [joinShows, ih]

theorem sampleStore_wellFormed : sampleStore.WellFormed := by
  simp [Store.WellFormed, sampleStore, sampleEntry]

theorem farStore_wellFormed : farStore.WellFormed := by
  simp [Store.WellFormed, farStore, farEntry]

/-! ## Ownership checks -/

/-- C1 (as the code has it): for every entry of a store and every caller whose id
differs from the entry's `user_id` as JavaScript numbers, Update and Delete on the
entry's id are answered 403 "Unauthorized" and leave the store as it was, whatever
the body and whatever the outcome of the storage steps.  The ids differ as
JavaScript numbers when the caller's id is not the double nearest to `user_id`;
that is so whenever the two ids differ and `user_id` is a double itself, in
particular whenever it is of magnitude below `2 ^ 53`. -/
theorem foreign_update_delete_forbidden (rt : Coercions) (s : Store)
    (hwf : s.WellFormed) (e : WatchlistEntry) (he : e ∈ s.watchlists)
    (caller : Identity)
    (hne : toNumber e.user_id ≠ caller.id ∨
      (toNumber e.user_id = e.user_id ∧ caller.id ≠ e.user_id) ∨
      (|e.user_id| < 2 ^ 53 ∧ caller.id ≠ e.user_id))
    (id : String) (hid : rt.sqlNumeric id = some e.id)
    (body : UpdateBody) (fetchErr writeErr : Option String) :
    putWatchlist rt s caller id body fetchErr writeErr
      = (s, ⟨403, .error "Unauthorized"⟩) ∧
    deleteWatchlist rt s caller id fetchErr writeErr
      = (s, ⟨403, .error "Unauthorized"⟩) := by
  have hsel := selectById_of_mem hwf.1 he hid
  have hne2 : toNumber e.user_id ≠ caller.id := by
    rcases hne with h | ⟨hr, h⟩ | ⟨hr, h⟩
    · exact h
    · rw [hr]
      exact fun hc => h hc.symm
    · rw [toNumber_of_lt _ hr]
      exact fun hc => h hc.symm
  cases fetchErr with
  | some m => exact ⟨rfl, rfl⟩
  | none => simp [putWatchlist, deleteWatchlist, hsel, hne2, unauthorized]

/-- User 2 cannot update or delete the entry of user 1 in the sample store. -/
theorem foreign_update_delete_forbidden_witness :
    putWatchlist decimalCoercions sampleStore bob "1"
        ⟨.str "dropped", .num 3, .null, .null⟩ none none
      = (sampleStore, ⟨403, .error "Unauthorized"⟩) ∧
    deleteWatchlist decimalCoercions sampleStore bob "1" none none
      = (sampleStore, ⟨403, .error "Unauthorized"⟩) :=
  foreign_update_delete_forbidden decimalCoercions sampleStore sampleStore_wellFormed
    sampleEntry (by simp [sampleStore]) bob
    (Or.inr (Or.inr ⟨by decide, by decide⟩)) "1" (by decide)
    ⟨.str "dropped", .num 3, .null, .null⟩ none none

/-- C1 fails as stated: the caller with id `2 ^ 53` is not the owner of the entry
whose `user_id` is `2 ^ 53 + 1`, yet the guard reads both as the same JavaScript
number, so the Update is answered 200 and rewrites the row, and the Delete is
answered 200 and removes it. -/
theorem foreign_update_delete_beyond_safe_integers :
    farEntry ∈ farStore.watchlists ∧ carol.id ≠ farEntry.user_id ∧
    putWatchlist decimalCoercions farStore carol "1"
        ⟨.str "dropped", .num 3, .null, .null⟩ none none
      = ({ farStore with
            watchlists := [{ farEntry with status := .text "dropped", progress := .int 3 }] },
          ⟨200, .changes 1⟩) ∧
    deleteWatchlist decimalCoercions farStore carol "1" none none
      = ({ farStore with watchlists := [] }, ⟨200, .changes 1⟩) := by
  refine ⟨by decide, by decide, ?_, ?_⟩ <;> decide

/-- C2 (as the code has it): List is answered 403 "Unauthorized" whenever
JavaScript does not read the path's userId as the caller's id; otherwise, the
query having run, it succeeds with status 200, every row it returns comes from an
entry of the store whose `user_id` is the integer SQLite reads in the path's
userId, and it returns the empty sequence when no entry has that `user_id`.  When
SQLite reads the path's userId as the caller's id too, every row returned has the
caller's id as `user_id` and comes from an entry of the caller, and a caller with
no entries gets the empty sequence. -/
theorem getWatchlist_owner_only (rt : Coercions) (s : Store) (user : Identity)
    (userId : String) :
    (rt.jsToNumber userId ≠ some user.id →
      ∀ err, getWatchlist rt s user userId err = ⟨403, .error "Unauthorized"⟩) ∧
    (rt.jsToNumber userId = some user.id →
      ∃ rows, getWatchlist rt s user userId none = ⟨200, .watchlist rows⟩ ∧
        (∀ r ∈ rows, ∃ e ∈ s.watchlists, rt.sqlNumeric userId = some e.user_id ∧
          r.id = toNumber e.id ∧ r.user_id = toNumber e.user_id) ∧
        ((∀ e ∈ s.watchlists, rt.sqlNumeric userId ≠ some e.user_id) → rows = []) ∧
        (rt.sqlNumeric userId = some user.id →
          (∀ r ∈ rows, r.user_id = user.id ∧
            ∃ e ∈ s.watchlists, e.user_id = user.id ∧ r.id = toNumber e.id) ∧
          ((∀ e ∈ s.watchlists, e.user_id ≠ user.id) → rows = []))) := by
  constructor
  · intro h err
    simp [getWatchlist, h, unauthorized]
  · intro h
    have hrow : ∀ r ∈ joinShows
        (s.watchlists.filter (fun w => eqParam rt w.user_id userId)) s.shows,
        ∃ e ∈ s.watchlists, rt.sqlNumeric userId = some e.user_id ∧
          r.id = toNumber e.id ∧ r.user_id = toNumber e.user_id := by
      intro r hr
      obtain ⟨w, hw, sh, _, _, rfl⟩ := mem_joinShows.mp hr
      rw [List.mem_filter, eqParam_iff] at hw
      exact ⟨w, hw.1, hw.2, rfl, rfl⟩
    have hempty : (∀ e ∈ s.watchlists, rt.sqlNumeric userId ≠ some e.user_id) →
        joinShows (s.watchlists.filter (fun w => eqParam rt w.user_id userId)) s.shows
          = [] := by
      intro hnone
      have hf : s.watchlists.filter (fun w => eqParam rt w.user_id userId) = [] := by
        rw [List.filter_eq_nil_iff]
        intro w hw hc
        exact hnone w hw ((eqParam_iff rt _ _).mp hc)
      rw [hf]
      rfl
    refine ⟨joinShows (s.watchlists.filter (fun w => eqParam rt w.user_id userId)) s.shows,
      by simp [getWatchlist, h, ok], hrow, hempty, ?_⟩
    intro hsql
    constructor
    · intro r hr
      obtain ⟨e, he, hu, hid, hru⟩ := hrow r hr
      rw [hsql] at hu
      have heu : e.user_id = user.id := (Option.some.inj hu).symm
      refine ⟨?_, e, he, heu, hid⟩
      rw [hru, heu]
      exact user.isNumber
    · intro hnone
      apply hempty
      intro e he hc
      rw [hsql] at hc
      exact hnone e he (Option.some.inj hc).symm

/-- User 2 asking for the list of user 1 is refused; user 1 gets the one entry. -/
theorem getWatchlist_owner_only_witness :
    getWatchlist decimalCoercions sampleStore bob "1" none
      = ⟨403, .error "Unauthorized"⟩ ∧
    ∃ rows, getWatchlist decimalCoercions sampleStore alice "1" none
        = ⟨200, .watchlist rows⟩ ∧ rows.length = 1 ∧ ∀ r ∈ rows, r.user_id = 1 := by
  refine ⟨(getWatchlist_owner_only decimalCoercions sampleStore bob "1").1
    (by decide) none, ?_⟩
  obtain ⟨rows, hrows, -, -, hown⟩ :=
    (getWatchlist_owner_only decimalCoercions sampleStore alice "1").2 (by decide)
  refine ⟨rows, hrows, ?_, fun r hr => ((hown (by decide)).1 r hr).1⟩
  have h2 : getWatchlist decimalCoercions sampleStore alice "1" none
      = ⟨200, .watchlist [joinRow sampleEntry sampleShow]⟩ := by
    decide
  rw [h2] at hrows
  injection hrows with _ hb
  injection hb with hb
  rw [← hb]
  rfl

/-- C2 fails as stated: the caller with id `2 ^ 53` holds no entry of the store,
and JavaScript reads the path "9007199254740993" as `2 ^ 53`, so the guard lets
the request through; SQLite reads the same path as `2 ^ 53 + 1`, and the list
that comes back holds the entry of that other user. -/
theorem getWatchlist_beyond_safe_integers :
    (∀ e ∈ farStore.watchlists, e.user_id ≠ carol.id) ∧
    getWatchlist decimalCoercions farStore carol "9007199254740993" none
      = ⟨200, .watchlist [joinRow farEntry sampleShow]⟩ := by
  constructor <;> decide

/-! ## Create followed by List -/

/-- C3 (as the code has it): a Create that succeeds and returns id n stores an
entry with that id, the caller's `user_id`, progress 0 and rating and notes unset.
When its `show_id` equals the id of a row of the shows table, the caller's List
that follows contains a row with id n, the caller's `user_id`, progress 0 and
rating and notes unset; when its `show_id` equals the id of no show, the caller's
List that follows is what it was before the Create. -/
theorem create_then_list (rt : Coercions) (s s1 : Store) (user : Identity)
    (show_id status : JsVal) (n : Int)
    (hcreate : postWatchlist rt s user show_id status none = (s1, ⟨200, .id n⟩))
    (userId : String) (hjs : rt.jsToNumber userId = some user.id)
    (hsql : rt.sqlNumeric userId = some user.id) :
    (∃ e ∈ s1.watchlists, toNumber e.id = n ∧ e.user_id = user.id ∧
      e.show_id = integerAffinity rt (bindParameter show_id) ∧
      e.progress = .int 0 ∧ e.rating = .null ∧ e.notes = .null) ∧
    ((∃ sh ∈ s.shows, eqRowid (integerAffinity rt (bindParameter show_id)) sh.id = true) →
      ∃ rows, getWatchlist rt s1 user userId none = ⟨200, .watchlist rows⟩ ∧
        ∃ r ∈ rows, r.id = n ∧ r.user_id = user.id ∧ r.progress = .int 0 ∧
          r.rating = .null ∧ r.notes = .null) ∧
    ((∀ sh ∈ s.shows, eqRowid (integerAffinity rt (bindParameter show_id)) sh.id = false) →
      getWatchlist rt s1 user userId none = getWatchlist rt s user userId none) := by
  unfold postWatchlist at hcreate
  simp only at hcreate
  split at hcreate
  · simp [storageError] at hcreate
  · rename_i lastID hnext
    simp only [ok, Prod.mk.injEq, Response.mk.injEq, Body.id.injEq, true_and] at hcreate
    obtain ⟨hs1, hn⟩ := hcreate
    subst hn
    subst hs1
    have hp : eqParam rt user.id userId = true := (eqParam_iff rt _ _).mpr hsql
    refine ⟨⟨_, List.mem_append_right _ (List.mem_singleton.mpr rfl), rfl, rfl, rfl, rfl,
      rfl, rfl⟩, ?_, ?_⟩
    · rintro ⟨sh, hsh, hk⟩
      refine ⟨_, by simp [getWatchlist, hjs, ok]; rfl, ?_⟩
      refine ⟨joinRow ⟨lastID, user.id, integerAffinity rt (bindParameter show_id),
        textAffinity rt (bindParameter status), .int 0, .null, .null⟩ sh, ?_, rfl,
        user.isNumber, rfl, rfl, rfl⟩
      rw [mem_joinShows]
      refine ⟨_, ?_, sh, hsh, hk, rfl⟩
      simp [List.mem_filter, hp]
    · intro hnone
      simp only [getWatchlist, hjs, ne_eq, not_true_eq_false, if_false]
      rw [List.filter_append, joinShows_append]
      have hnew : joinShows (List.filter (fun w => eqParam rt w.user_id userId)
          [⟨lastID, user.id, integerAffinity rt (bindParameter show_id),
            textAffinity rt (bindParameter status), .int 0, .null, .null⟩]) s.shows = [] := by
        simp only [List.filter, hp, joinShows, List.append_nil, List.map_eq_nil_iff,
          List.filter_eq_nil_iff]
        intro sh hsh
        simp [hnone sh hsh]
      rw [hnew, List.append_nil]

/-- A Create on the show of the sample store is listed afterwards. -/
theorem create_then_list_witness :
    ∃ rows, getWatchlist decimalCoercions
        (postWatchlist decimalCoercions sampleStore alice (.num 5)
          (.str "plan_to_watch") none).1 alice "1" none
        = ⟨200, .watchlist rows⟩ ∧
      ∃ r ∈ rows, r.id = 2 ∧ r.user_id = 1 ∧ r.progress = .int 0 ∧
        r.rating = .null ∧ r.notes = .null :=
  (create_then_list decimalCoercions sampleStore _ alice (.num 5)
    (.str "plan_to_watch") 2 (by decide) "1" (by decide) (by decide)).2.1
    ⟨sampleShow, List.mem_singleton.mpr rfl, by decide⟩

/-- C3 fails as stated: a Create whose `show_id` is the id of no show succeeds and
returns id 1, and the caller's List that follows is empty. -/
theorem create_dangling_show_not_listed :
    ∃ s1, postWatchlist decimalCoercions Store.empty alice (.num 99)
        (.str "watching") none = (s1, ⟨200, .id 1⟩) ∧
      getWatchlist decimalCoercions s1 alice "1" none = ⟨200, .watchlist []⟩ := by
  refine ⟨_, rfl, ?_⟩
  decide

/-! ## Update -/

theorem eqParam_false_of_ne {rt : Coercions} {id : String} {k j : Int}
    (hid : rt.sqlNumeric id = some k) (hne : j ≠ k) : eqParam rt j id = false := by
  simp only [eqParam, hid, decide_eq_false_iff_not]
  intro hc
  exact hne (Option.some.inj hc).symm

theorem countP_eqParam_eq_one {rt : Coercions} {rows : List WatchlistEntry}
    {e : WatchlistEntry} {id : String} (hnd : (rows.map (·.id)).Nodup) (he : e ∈ rows)
    (hid : rt.sqlNumeric id = some e.id) :
    rows.countP (fun r => eqParam rt r.id id) = 1 := by
  induction rows with
  | nil => cases he
  | cons r rs ih =>
    rw [List.map_cons, List.nodup_cons] at hnd
    rcases List.mem_cons.mp he with h | h
    · subst h
      have hz : rs.countP (fun r => eqParam rt r.id id) = 0 := by
        rw [List.countP_eq_zero]
        intro r hr hc
        rw [eqParam_iff, hid] at hc
        exact hnd.1 ((Option.some.inj hc) ▸ List.mem_map_of_mem (·.id) hr)
      have ht : eqParam rt e.id id = true := (eqParam_iff rt _ _).mpr hid
      simp [List.countP_cons, hz, ht]
    · have hne : r.id ≠ e.id := by
        intro heq
        exact hnd.1 (heq ▸ List.mem_map_of_mem (·.id) h)
      simp [List.countP_cons, eqParam_false_of_ne hid hne, ih hnd.2 h]

theorem updateRow_id (rt : Coercions) (id : String) (body : UpdateBody)
    (r : WatchlistEntry) : (updateRow rt id body r).id = r.id := by
  unfold updateRow
  split <;> rfl

theorem updateRow_user_id (rt : Coercions) (id : String) (body : UpdateBody)
    (r : WatchlistEntry) : (updateRow rt id body r).user_id = r.user_id := by
  unfold updateRow
  split <;> rfl

theorem updateRow_idem (rt : Coercions) (id : String) (body : UpdateBody)
    (r : WatchlistEntry) :
    updateRow rt id body (updateRow rt id body r) = updateRow rt id body r := by
  by_cases h : eqParam rt r.id id = true
  · simp [updateRow, h]
  · simp [updateRow, h]

theorem map_id_map_updateRow (rt : Coercions) (id : String) (body : UpdateBody)
    (rows : List WatchlistEntry) :
    (rows.map (updateRow rt id body)).map (·.id) = rows.map (·.id) := by
  rw [List.map_map]
  exact List.map_congr_left (fun r _ => updateRow_id rt id body r)

theorem putWatchlist_owner {rt : Coercions} {s : Store} (hwf : s.WellFormed)
    {e : WatchlistEntry} (he : e ∈ s.watchlists) {user : Identity}
    (hown : e.user_id = user.id) {id : String} (hid : rt.sqlNumeric id = some e.id)
    (body : UpdateBody) :
    putWatchlist rt s user id body none none
      = ({ s with watchlists := s.watchlists.map (updateRow rt id body) },
          ⟨200, .changes 1⟩) := by
  simp [putWatchlist, selectById_of_mem hwf.1 he hid, hown, user.isNumber,
    countP_eqParam_eq_one hwf.1 he hid, ok]

/-- C4: for an entry the caller owns, applying the same Update twice in a row
leaves the store the first application produced, and both applications succeed
and report one changed row. -/
theorem update_idempotent (rt : Coercions) (s : Store) (hwf : s.WellFormed)
    (e : WatchlistEntry) (he : e ∈ s.watchlists) (user : Identity)
    (hown : e.user_id = user.id) (id : String) (hid : rt.sqlNumeric id = some e.id)
    (body : UpdateBody) :
    ∃ s1, putWatchlist rt s user id body none none = (s1, ⟨200, .changes 1⟩) ∧
      putWatchlist rt s1 user id body none none = (s1, ⟨200, .changes 1⟩) := by
  refine ⟨_, putWatchlist_owner hwf he hown hid body, ?_⟩
  have hwf1 : Store.WellFormed
      { s with watchlists := s.watchlists.map (updateRow rt id body) } := by
    refine ⟨?_, ?_⟩
    · show ((s.watchlists.map (updateRow rt id body)).map (·.id)).Nodup
      rw [map_id_map_updateRow]
      exact hwf.1
    · intro r hr
      obtain ⟨r0, hr0, rfl⟩ := List.mem_map.mp hr
      rw [updateRow_id]
      exact hwf.2 r0 hr0
  have he1 : updateRow rt id body e ∈
      (s.watchlists.map (updateRow rt id body)) := List.mem_map_of_mem _ he
  have hown1 : (updateRow rt id body e).user_id = user.id := by
    rw [updateRow_user_id]
    exact hown
  have hid1 : rt.sqlNumeric id = some (updateRow rt id body e).id := by
    rw [updateRow_id]
    exact hid
  have h2 := putWatchlist_owner hwf1 he1 hown1 hid1 body
  rw [h2]
  simp only [List.map_map]
  congr 2
  exact List.map_congr_left (fun r _ => updateRow_idem rt id body r)

/-- The scenario update of the sample entry, applied twice. -/
theorem update_idempotent_witness :
    ∃ s1, putWatchlist decimalCoercions sampleStore alice "1"
        ⟨.str "completed", .num 12, .num 9, .str "great"⟩ none none
        = (s1, ⟨200, .changes 1⟩) ∧
      putWatchlist decimalCoercions s1 alice "1"
        ⟨.str "completed", .num 12, .num 9, .str "great"⟩ none none
        = (s1, ⟨200, .changes 1⟩) :=
  update_idempotent decimalCoercions sampleStore sampleStore_wellFormed
    sampleEntry (by simp [sampleStore]) alice rfl "1" (by decide)
    ⟨.str "completed", .num 12, .num 9, .str "great"⟩

/-- C10: a successful Update of an entry the caller owns replaces the status,
progress, rating and notes of the row with that id by the body's values as the
columns store them, keeps the row's id, `user_id` and `show_id`, and leaves every
other row and every other table as it was.  As the columns store them: a string
in status or notes is stored as that text, a whole number strictly between the
smallest and the largest 64-bit integer in progress or rating is stored as that
integer and a larger one as a REAL, a number in status or notes is stored in its
text form, a string in progress or rating that SQLite reads as a 64-bit integer is
stored as that integer, and a field the body lacks, or one that is null, becomes
NULL. -/
theorem update_frame (rt : Coercions) (s : Store) (hwf : s.WellFormed)
    (e : WatchlistEntry) (he : e ∈ s.watchlists) (user : Identity)
    (hown : e.user_id = user.id) (id : String) (hid : rt.sqlNumeric id = some e.id)
    (body : UpdateBody) :
    ∃ s1 e1, putWatchlist rt s user id body none none = (s1, ⟨200, .changes 1⟩) ∧
      s1.watchlists = s.watchlists.map (fun r => if r = e then e1 else r) ∧
      (e1.id = e.id ∧ e1.user_id = e.user_id ∧ e1.show_id = e.show_id) ∧
      (e1.status = textAffinity rt (bindParameter body.status) ∧
        e1.progress = integerAffinity rt (bindParameter body.progress) ∧
        e1.rating = integerAffinity rt (bindParameter body.rating) ∧
        e1.notes = textAffinity rt (bindParameter body.notes)) ∧
      ((∀ t, body.status = .str t → e1.status = .text t) ∧
        (∀ n : Int, minRowid < n → n < maxRowid → body.progress = .num n →
          e1.progress = .int n) ∧
        (∀ n : Int, minRowid < n → n < maxRowid → body.rating = .num n →
          e1.rating = .int n) ∧
        (∀ t, body.notes = .str t → e1.notes = .text t)) ∧
      ((∀ n : Int, -2147483648 ≤ n → n ≤ 2147483647 →
          (body.status = .num n → e1.status = .text (toString n)) ∧
          (body.notes = .num n → e1.notes = .text (toString n))) ∧
        (∀ n : Int, 2147483647 < n →
          (body.status = .num n → e1.status = .text (rt.realText n)) ∧
          (body.notes = .num n → e1.notes = .text (rt.realText n))) ∧
        (∀ n : Int, maxRowid ≤ n →
          (body.progress = .num n → e1.progress = .real n) ∧
          (body.rating = .num n → e1.rating = .real n)) ∧
        (∀ t n, rt.sqlNumeric t = some n → minRowid ≤ n → n ≤ maxRowid →
          (body.progress = .str t → e1.progress = .int n) ∧
          (body.rating = .str t → e1.rating = .int n))) ∧
      ((body.status = .undefined ∨ body.status = .null → e1.status = .null) ∧
        (body.progress = .undefined ∨ body.progress = .null → e1.progress = .null) ∧
        (body.rating = .undefined ∨ body.rating = .null → e1.rating = .null) ∧
        (body.notes = .undefined ∨ body.notes = .null → e1.notes = .null)) ∧
      (∀ r ∈ s.watchlists, r.id ≠ e.id → r ∈ s1.watchlists) ∧
      (∀ r ∈ s1.watchlists, r.id ≠ e.id → r ∈ s.watchlists) ∧
      s1.watchlists.length = s.watchlists.length ∧
      s1.watchlistsSeq = s.watchlistsSeq ∧
      s1.shows = s.shows ∧ s1.showsSeq = s.showsSeq ∧
      s1.clubs = s.clubs ∧ s1.clubsSeq = s.clubsSeq := by
  have ht : eqParam rt e.id id = true := (eqParam_iff rt _ _).mpr hid
  have hother : ∀ r ∈ s.watchlists, r.id ≠ e.id → updateRow rt id body r = r := by
    intro r _ hne
    simp [updateRow, eqParam_false_of_ne hid hne]
  refine ⟨_, updateRow rt id body e, putWatchlist_owner hwf he hown hid body, ?_,
    ?_, ?_, ?_, ?_, ?_, ?_, ?_, ?_, rfl, rfl, rfl, rfl, rfl⟩
  · show s.watchlists.map (updateRow rt id body) = _
    apply List.map_congr_left
    intro r hr
    by_cases hre : r = e
    · simp [hre]
    · have hne : r.id ≠ e.id := fun h => hre (List.inj_on_of_nodup_map hwf.1 hr he h)
      simp [hre, hother r hr hne]
  · simp [updateRow, ht]
  · simp [updateRow, ht]
  · refine ⟨?_, ?_, ?_, ?_⟩
    · intro t hv
      simp [updateRow, ht, hv, bindParameter, textAffinity]
    · intro n h1 h2 hv
      simp only [updateRow, ht, if_true, hv]
      exact integerAffinity_num rt n h1 h2
    · intro n h1 h2 hv
      simp only [updateRow, ht, if_true, hv]
      exact integerAffinity_num rt n h1 h2
    · intro t hv
      simp [updateRow, ht, hv, bindParameter, textAffinity]
  · refine ⟨?_, ?_, ?_, ?_⟩
    · intro n h1 h2
      constructor <;> intro hv <;>
        simp [updateRow, ht, hv, bindParameter, textAffinity, h1, h2]
    · intro n h1
      have h2 : ¬ n ≤ 2147483647 := by omega
      constructor <;> intro hv <;>
        simp [updateRow, ht, hv, bindParameter, textAffinity, h2]
    · intro n h1
      have h2 : ¬ n ≤ 2147483647 := by
        unfold maxRowid at h1
        omega
      have h3 : ¬ n < maxRowid := by omega
      constructor <;> intro hv <;>
        simp [updateRow, ht, hv, bindParameter, integerAffinity, realToInteger, h2, h3]
    · intro t n hn h1 h2
      constructor <;> intro hv <;>
        simp [updateRow, ht, hv, bindParameter, integerAffinity, hn, h1, h2]
  · refine ⟨?_, ?_, ?_, ?_⟩ <;> rintro (hv | hv) <;>
      simp [updateRow, ht, hv, bindParameter, textAffinity, integerAffinity]
  · intro r hr hne
    show r ∈ s.watchlists.map (updateRow rt id body)
    exact List.mem_map.mpr ⟨r, hr, hother r hr hne⟩
  · intro r hr hne
    obtain ⟨r0, hr0, rfl⟩ := List.mem_map.mp
      (show r ∈ s.watchlists.map (updateRow rt id body) from hr)
    rw [updateRow_id] at hne
    rw [hother r0 hr0 hne]
    exact hr0
  · show (s.watchlists.map (updateRow rt id body)).length = _
    simp

/-- The scenario update of the sample entry: one row changed, the row keeps its
owner and holds the body's values. -/
theorem update_frame_witness :
    ∃ s1 e1, putWatchlist decimalCoercions sampleStore alice "1"
        ⟨.str "completed", .num 12, .num 9, .undefined⟩ none none
        = (s1, ⟨200, .changes 1⟩) ∧
      s1.watchlists = [e1] ∧ e1.user_id = 1 ∧ e1.status = .text "completed" ∧
      e1.progress = .int 12 ∧ e1.rating = .int 9 ∧ e1.notes = .null := by
  obtain ⟨s1, e1, h1, h2, ⟨-, hu, -⟩, -, ⟨hs, hp, hr, -⟩, -, ⟨-, -, -, hn⟩, -⟩ :=
    update_frame decimalCoercions sampleStore sampleStore_wellFormed
      sampleEntry (by simp [sampleStore]) alice rfl "1" (by decide)
      ⟨.str "completed", .num 12, .num 9, .undefined⟩
  exact ⟨s1, e1, h1, by simpa [sampleStore] using h2, hu, hs _ rfl,
    hp 12 (by decide) (by decide) (by norm_num), hr 9 (by decide) (by decide) (by norm_num),
    hn (Or.inl rfl)⟩

/-! ## Rowids and sequences of requests -/

theorem largestRowid_bounds (ids : List Int) (seq : Int) :
    seq ≤ largestRowid ids seq ∧ ∀ i ∈ ids, i ≤ largestRowid ids seq := by
  induction ids generalizing seq with
  | nil => simp [largestRowid]
  | cons a as ih =>
    have h := ih (max seq a)
    simp only [largestRowid, List.foldl_cons] at h ⊢
    refine ⟨le_trans (le_max_left _ _) h.1, ?_⟩
    intro i hi
    rcases List.mem_cons.mp hi with rfl | hi
    · exact le_trans (le_max_right _ _) h.1
    · exact h.2 i hi

theorem nextRowid_gt {ids : List Int} {seq lastID : Int}
    (h : nextRowid ids seq = some lastID) :
    seq < lastID ∧ ∀ i ∈ ids, i < lastID := by
  unfold nextRowid at h
  split at h
  · cases h
    have hb := largestRowid_bounds ids seq
    exact ⟨Int.lt_add_one_iff.mpr hb.1, fun i hi => Int.lt_add_one_iff.mpr (hb.2 i hi)⟩
  · cases h

theorem postWatchlist_store (rt : Coercions) (s : Store) (user : Identity)
    (show_id status : JsVal) (err : Option String) :
    (postWatchlist rt s user show_id status err).1 = s ∨
    ∃ lastID, nextRowid (s.watchlists.map (·.id)) s.watchlistsSeq = some lastID ∧
      (postWatchlist rt s user show_id status err).1 =
        { s with
          watchlists := s.watchlists ++
            [{ id := lastID
               user_id := user.id
               show_id := integerAffinity rt (bindParameter show_id)
               status := textAffinity rt (bindParameter status)
               progress := .int 0
               rating := .null
               notes := .null }]
          watchlistsSeq := lastID } := by
  unfold postWatchlist
  cases err with
  | some m => exact Or.inl rfl
  | none =>
    cases h : nextRowid (s.watchlists.map (·.id)) s.watchlistsSeq with
    | none => exact Or.inl rfl
    | some lastID => exact Or.inr ⟨lastID, rfl, rfl⟩

theorem putWatchlist_store (rt : Coercions) (s : Store) (user : Identity) (id : String)
    (body : UpdateBody) (fetchErr writeErr : Option String) :
    (putWatchlist rt s user id body fetchErr writeErr).1 = s ∨
    (putWatchlist rt s user id body fetchErr writeErr).1 =
      { s with watchlists := s.watchlists.map (updateRow rt id body) } := by
  unfold putWatchlist
  cases fetchErr with
  | some m => exact Or.inl rfl
  | none =>
    cases selectById rt s.watchlists id with
    | none => exact Or.inl rfl
    | some item =>
      by_cases hu : toNumber item.user_id ≠ user.id
      · simp [hu]
      · cases writeErr with
        | some m => simp [hu]
        | none => simp [hu]

theorem deleteWatchlist_store (rt : Coercions) (s : Store) (user : Identity)
    (id : String) (fetchErr writeErr : Option String) :
    (deleteWatchlist rt s user id fetchErr writeErr).1 = s ∨
    (deleteWatchlist rt s user id fetchErr writeErr).1 =
      { s with watchlists := s.watchlists.filter (fun r => !eqParam rt r.id id) } := by
  unfold deleteWatchlist
  cases fetchErr with
  | some m => exact Or.inl rfl
  | none =>
    cases selectById rt s.watchlists id with
    | none => exact Or.inl rfl
    | some item =>
      by_cases hu : toNumber item.user_id ≠ user.id
      · simp [hu]
      · cases writeErr with
        | some m => simp [hu]
        | none => simp [hu]

theorem handle_absent (rt : Coercions) (s : Store) (req : Request) (k : Int)
    (hrows : ∀ r ∈ s.watchlists, r.id ≠ k) (hseq : k ≤ s.watchlistsSeq) :
    (∀ r ∈ (handle rt s req).1.watchlists, r.id ≠ k) ∧
      k ≤ (handle rt s req).1.watchlistsSeq := by
  cases req with
  | create user show_id status err =>
    rcases postWatchlist_store rt s user show_id status err with h | ⟨lastID, hn, h⟩
    · simp only [handle, h]
      exact ⟨hrows, hseq⟩
    · simp only [handle, h]
      have hgt := (nextRowid_gt hn).1
      refine ⟨?_, by show k ≤ lastID; omega⟩
      intro r hr
      rcases List.mem_append.mp hr with hr | hr
      · exact hrows r hr
      · rw [List.mem_singleton] at hr
        subst hr
        show lastID ≠ k
        omega
  | update user id body fetchErr writeErr =>
    rcases putWatchlist_store rt s user id body fetchErr writeErr with h | h
    · simp only [handle, h]
      exact ⟨hrows, hseq⟩
    · simp only [handle, h]
      refine ⟨?_, hseq⟩
      intro r hr
      obtain ⟨r0, hr0, rfl⟩ := List.mem_map.mp hr
      rw [updateRow_id]
      exact hrows r0 hr0
  | delete user id fetchErr writeErr =>
    rcases deleteWatchlist_store rt s user id fetchErr writeErr with h | h
    · simp only [handle, h]
      exact ⟨hrows, hseq⟩
    · simp only [handle, h]
      exact ⟨fun r hr => hrows r (List.mem_filter.mp hr).1, hseq⟩

theorem run_absent (rt : Coercions) (rs : List Request) (s : Store) (k : Int)
    (hrows : ∀ r ∈ s.watchlists, r.id ≠ k) (hseq : k ≤ s.watchlistsSeq) :
    (∀ r ∈ (run rt s rs).watchlists, r.id ≠ k) ∧ k ≤ (run rt s rs).watchlistsSeq := by
  induction rs generalizing s with
  | nil => exact ⟨hrows, hseq⟩
  | cons req rs ih =>
    have h := handle_absent rt s req k hrows hseq
    exact ih (handle rt s req).1 h.1 h.2

theorem empty_wellFormed : Store.empty.WellFormed := by
  simp [Store.WellFormed, Store.empty]

theorem handle_wellFormed (rt : Coercions) (s : Store) (req : Request)
    (hwf : s.WellFormed) : (handle rt s req).1.WellFormed := by
  cases req with
  | create user show_id status err =>
    rcases postWatchlist_store rt s user show_id status err with h | ⟨lastID, hn, h⟩
    · simp only [handle, h]
      exact hwf
    · simp only [handle, h]
      have hgt := (nextRowid_gt hn).2
      refine ⟨?_, ?_⟩
      · show ((s.watchlists ++ _).map (·.id)).Nodup
        rw [List.map_append, List.nodup_append]
        refine ⟨hwf.1, by simp, ?_⟩
        intro i hi hi2
        simp only [List.map_cons, List.map_nil, List.mem_singleton] at hi2
        have := hgt i hi
        omega
      · intro r hr
        rcases List.mem_append.mp hr with hr | hr
        · have := hgt r.id (List.mem_map_of_mem (·.id) hr)
          show r.id ≤ lastID
          omega
        · rw [List.mem_singleton] at hr
          subst hr
          exact le_refl _
  | update user id body fetchErr writeErr =>
    rcases putWatchlist_store rt s user id body fetchErr writeErr with h | h
    · simp only [handle, h]
      exact hwf
    · simp only [handle, h]
      refine ⟨?_, ?_⟩
      · show ((s.watchlists.map (updateRow rt id body)).map (·.id)).Nodup
        rw [map_id_map_updateRow]
        exact hwf.1
      · intro r hr
        obtain ⟨r0, hr0, rfl⟩ := List.mem_map.mp hr
        rw [updateRow_id]
        exact hwf.2 r0 hr0
  | delete user id fetchErr writeErr =>
    rcases deleteWatchlist_store rt s user id fetchErr writeErr with h | h
    · simp only [handle, h]
      exact hwf
    · simp only [handle, h]
      exact ⟨hwf.1.sublist ((List.filter_sublist _).map _),
        fun r hr => hwf.2 r (List.mem_filter.mp hr).1⟩

theorem run_wellFormed (rt : Coercions) (rs : List Request) (s : Store)
    (hwf : s.WellFormed) : (run rt s rs).WellFormed := by
  induction rs generalizing s with
  | nil => exact hwf
  | cons req rs ih => exact ih _ (handle_wellFormed rt s req hwf)

theorem handle_user_ids (rt : Coercions) (s : Store) (req : Request)
    (hs : ∀ e ∈ s.watchlists, toNumber e.user_id = e.user_id) :
    ∀ e ∈ (handle rt s req).1.watchlists, toNumber e.user_id = e.user_id := by
  cases req with
  | create user show_id status err =>
    rcases postWatchlist_store rt s user show_id status err with h | ⟨lastID, _, h⟩
    · simp only [handle, h]
      exact hs
    · simp only [handle, h]
      intro e he
      rcases List.mem_append.mp he with he | he
      · exact hs e he
      · rw [List.mem_singleton] at he
        subst he
        exact user.isNumber
  | update user id body fetchErr writeErr =>
    rcases putWatchlist_store rt s user id body fetchErr writeErr with h | h
    · simp only [handle, h]
      exact hs
    · simp only [handle, h]
      intro e he
      obtain ⟨r, hr, rfl⟩ := List.mem_map.mp he
      rw [updateRow_user_id]
      exact hs r hr
  | delete user id fetchErr writeErr =>
    rcases deleteWatchlist_store rt s user id fetchErr writeErr with h | h
    · simp only [handle, h]
      exact hs
    · simp only [handle, h]
      exact fun e he => hs e (List.mem_filter.mp he).1

/-- Every `user_id` the handlers write is a JavaScript number: in a store reached
from the empty one, the guard of Update and Delete compares the ids exactly. -/
theorem run_user_ids (rt : Coercions) (rs : List Request) (s : Store)
    (hs : ∀ e ∈ s.watchlists, toNumber e.user_id = e.user_id) :
    ∀ e ∈ (run rt s rs).watchlists, toNumber e.user_id = e.user_id := by
  induction rs generalizing s with
  | nil => exact hs
  | cons req rs ih => exact ih _ (handle_user_ids rt s req hs)

/-! ## Delete -/

theorem deleteWatchlist_owner {rt : Coercions} {s : Store} (hwf : s.WellFormed)
    {e : WatchlistEntry} (he : e ∈ s.watchlists) {user : Identity}
    (hown : e.user_id = user.id) {id : String} (hid : rt.sqlNumeric id = some e.id) :
    deleteWatchlist rt s user id none none
      = ({ s with watchlists := s.watchlists.filter (fun r => !eqParam rt r.id id) },
          ⟨200, .changes 1⟩) := by
  simp [deleteWatchlist, selectById_of_mem hwf.1 he hid, hown, user.isNumber,
    countP_eqParam_eq_one hwf.1 he hid, ok]

/-- C5: after a successful Delete of an entry the caller owns, and after any
further sequence of Create, Update and Delete requests, every Update and every
Delete on that id, by any caller, is answered 403 "Unauthorized" and changes
nothing: the id is never assigned to a new row. -/
theorem deleted_id_stays_forbidden (rt : Coercions) (s : Store) (hwf : s.WellFormed)
    (e : WatchlistEntry) (he : e ∈ s.watchlists) (user : Identity)
    (hown : e.user_id = user.id) (id : String) (hid : rt.sqlNumeric id = some e.id)
    (rs : List Request) (caller : Identity) (id2 : String)
    (hid2 : rt.sqlNumeric id2 = some e.id) (body : UpdateBody)
    (fetchErr writeErr : Option String) :
    ∃ s1, deleteWatchlist rt s user id none none = (s1, ⟨200, .changes 1⟩) ∧
      (∀ r ∈ (run rt s1 rs).watchlists, r.id ≠ e.id) ∧
      putWatchlist rt (run rt s1 rs) caller id2 body fetchErr writeErr
        = (run rt s1 rs, ⟨403, .error "Unauthorized"⟩) ∧
      deleteWatchlist rt (run rt s1 rs) caller id2 fetchErr writeErr
        = (run rt s1 rs, ⟨403, .error "Unauthorized"⟩) := by
  refine ⟨_, deleteWatchlist_owner hwf he hown hid, ?_⟩
  have habs := run_absent rt rs
    { s with watchlists := s.watchlists.filter (fun r => !eqParam rt r.id id) } e.id
    (by
      intro r hr heq
      have hf := (List.mem_filter.mp hr).2
      rw [← heq] at hid
      simp [eqParam, hid] at hf)
    (hwf.2 e he)
  have hsel : selectById rt (run rt
      { s with watchlists := s.watchlists.filter (fun r => !eqParam rt r.id id) }
      rs).watchlists id2 = none := by
    apply selectById_none_of_absent
    intro r hr hc
    rw [hid2] at hc
    exact habs.1 r hr (Option.some.inj hc).symm
  refine ⟨habs.1, ?_, ?_⟩
  · cases fetchErr with
    | some m => rfl
    | none => simp [putWatchlist, hsel, unauthorized]
  · cases fetchErr with
    | some m => rfl
    | none => simp [deleteWatchlist, hsel, unauthorized]

/-- After user 1 deletes entry 1 of the sample store and creates another entry,
an Update or Delete on id 1 is refused. -/
theorem deleted_id_stays_forbidden_witness :
    ∃ s1, deleteWatchlist decimalCoercions sampleStore alice "1" none none
        = (s1, ⟨200, .changes 1⟩) ∧
      (∀ r ∈ (run decimalCoercions s1
          [.create alice (.num 5) (.str "watching") none]).watchlists, r.id ≠ 1) ∧
      putWatchlist decimalCoercions
          (run decimalCoercions s1 [.create alice (.num 5) (.str "watching") none])
          alice "1" ⟨.str "completed", .num 26, .null, .null⟩ none none
        = (run decimalCoercions s1 [.create alice (.num 5) (.str "watching") none],
            ⟨403, .error "Unauthorized"⟩) ∧
      deleteWatchlist decimalCoercions
          (run decimalCoercions s1 [.create alice (.num 5) (.str "watching") none])
          alice "1" none none
        = (run decimalCoercions s1 [.create alice (.num 5) (.str "watching") none],
            ⟨403, .error "Unauthorized"⟩) :=
  deleted_id_stays_forbidden decimalCoercions sampleStore sampleStore_wellFormed
    sampleEntry (by simp [sampleStore]) alice rfl "1" (by decide)
    [.create alice (.num 5) (.str "watching") none] alice "1" (by decide)
    ⟨.str "completed", .num 26, .null, .null⟩ none none

/-! ## Data-model invariant -/

theorem handle_valid (rt : Coercions) (s : Store) (req : Request)
    (hs : ∀ e ∈ s.watchlists, EntryValid e) (hreq : req.Valid) :
    ∀ e ∈ (handle rt s req).1.watchlists, EntryValid e := by
  cases req with
  | create user show_id status err =>
    obtain ⟨st, hst, hstatus⟩ := hreq
    rcases postWatchlist_store rt s user show_id status err with h | ⟨lastID, _, h⟩
    · simp only [handle, h]
      exact hs
    · simp only [handle, h]
      intro e he
      rcases List.mem_append.mp he with he | he
      · exact hs e he
      · rw [List.mem_singleton] at he
        subst he
        exact ⟨⟨st, hst, by simp [hstatus, bindParameter, textAffinity]⟩, 0, le_refl _, rfl⟩
  | update user id body fetchErr writeErr =>
    obtain ⟨⟨st, hst, hstatus⟩, n, hn, hn2, hprogress⟩ := hreq
    rcases putWatchlist_store rt s user id body fetchErr writeErr with h | h
    · simp only [handle, h]
      exact hs
    · simp only [handle, h]
      intro e he
      obtain ⟨r, hr, rfl⟩ := List.mem_map.mp he
      by_cases hp : eqParam rt r.id id = true
      · refine ⟨⟨st, hst, ?_⟩, n, hn, ?_⟩
        · simp [updateRow, hp, hstatus, bindParameter, textAffinity]
        · simp only [updateRow, hp, if_true, hprogress]
          exact integerAffinity_num rt n (by unfold minRowid; omega) hn2
      · have : updateRow rt id body r = r := by simp [updateRow, hp]
        rw [this]
        exact hs r hr
  | delete user id fetchErr writeErr =>
    rcases deleteWatchlist_store rt s user id fetchErr writeErr with h | h
    · simp only [handle, h]
      exact hs
    · simp only [handle, h]
      exact fun e he => hs e (List.mem_filter.mp he).1

/-- The invariant is kept by requests that carry valid values: in a store reached
by requests with a listed status and, for an Update, a non-negative integer
progress, every entry is valid. -/
theorem run_valid (rt : Coercions) (rs : List Request) (s : Store)
    (hs : ∀ e ∈ s.watchlists, EntryValid e) (hrs : ∀ r ∈ rs, r.Valid) :
    ∀ e ∈ (run rt s rs).watchlists, EntryValid e := by
  induction rs generalizing s with
  | nil => exact hs
  | cons req rs ih =>
    exact ih _ (handle_valid rt s req hs (hrs req (List.mem_cons_self _ _)))
      (fun r hr => hrs r (List.mem_cons_of_mem _ hr))

/-- C9, evaluated where the code breaks it: on a fresh database the Create with
status "rewatching" is answered 200 with id 1 and stores the entry with that
unlisted status; and a Create followed by the owner's Update with progress -3
leaves an entry with a negative progress. -/
theorem reachable_entry_invalid :
    (postWatchlist decimalCoercions Store.empty alice (.num 5) (.str "rewatching") none
        = ({ Store.empty with
              watchlists := [⟨1, 1, .int 5, .text "rewatching", .int 0, .null, .null⟩]
              watchlistsSeq := 1 },
            ⟨200, .id 1⟩) ∧
      ∃ e ∈ (run decimalCoercions Store.empty
          [.create alice (.num 5) (.str "rewatching") none]).watchlists,
        e.status = .text "rewatching" ∧ ¬ EntryValid e) ∧
    (∃ e ∈ (run decimalCoercions Store.empty
        [.create alice (.num 5) (.str "watching") none,
         .update alice "1" ⟨.str "watching", .num (-3), .null, .null⟩
           none none]).watchlists,
      e.progress = .int (-3) ∧ ¬ EntryValid e) := by
  refine ⟨⟨by decide, ?_⟩, ?_⟩
  · refine ⟨⟨1, 1, .int 5, .text "rewatching", .int 0, .null, .null⟩, by decide, rfl, ?_⟩
    rintro ⟨⟨st, hst, h⟩, -⟩
    injection h with h
    subst h
    simp [statuses] at hst
  · refine ⟨⟨1, 1, .int 5, .text "watching", .int (-3), .null, .null⟩, by decide, rfl, ?_⟩
    rintro ⟨-, n, hn, h⟩
    injection h with h
    subst h
    omega

end AnimeTracker
